import Mathlib

/-!
Verification of the configuration-parsing layer of diffr (src/cli_args.rs).

The Rust module parses command-line values into an `AppConfig`: four face
style records, two boolean toggles and an optional line-numbering style.
We embed the parsing functions shallowly: Rust's `&mut` config threading
becomes explicit state passing, a `Result<(), E>`-returning function over a
`&mut` receiver becomes a function returning the updated state paired with
`Option E` (so partial mutation before an error is observable, as in Rust).
-/

/-- The color type of the external `termcolor` crate.
Named basic colors plus an ANSI-256 index and an RGB triple. -/
inductive Color where
  | Black | Blue | Green | Red | Cyan | Magenta | Yellow | White
  | Ansi256 (n : Nat)
  | Rgb (r g b : Nat)
deriving DecidableEq, Repr

/-- Modelled from the spec: the diagnostic of the external color library
(`termcolor::ParseColorError`), carried opaquely as its rendered message. -/
structure ParseColorError where
  msg : String
deriving DecidableEq, Repr

/-- Model of Rust's `str::split(sep)` at the character-list level: splits
at every occurrence of the separator, keeping empty pieces; an empty input
yields one empty piece, exactly as in Rust. -/
def splitCharList (sep : Char) : List Char → List String
  | [] => [""]
  | c :: cs =>
    if c == sep then "" :: splitCharList sep cs
    else
      match splitCharList sep cs with
      | [] => [String.mk [c]]
      | piece :: rest => String.mk (c :: piece.data) :: rest

/-- Model of Rust's `str::split(sep)` on strings. -/
def rustSplit (s : String) (sep : Char) : List String :=
  splitCharList sep s.data

/-- The numeric value of a list of decimal digit characters. -/
def charsToNat (cs : List Char) : Nat :=
  cs.foldl (fun acc c => 10 * acc + (c.toNat - 48)) 0

/-- Decimal parse of a string made of digits only, otherwise failure;
models Rust's `u8::from_str` shape (the range check is done by the
caller). -/
def natOfDigits (s : String) : Option Nat :=
  if !s.data.isEmpty && s.data.all Char.isDigit then some (charsToNat s.data)
  else none

/-- Modelled from the spec: a color value is either the sentinel "no color"
or a concrete color expressible as a named basic color, a single 0-255
index, or an explicit (r,g,b) triple; full parsing is delegated to the
external color library (`termcolor`'s `FromStr for Color`), of which this
is a model. -/
def Color.from_str (s : String) : Except ParseColorError Color :=
  match s with
  | "black" => .ok .Black
  | "blue" => .ok .Blue
  | "green" => .ok .Green
  | "red" => .ok .Red
  | "cyan" => .ok .Cyan
  | "magenta" => .ok .Magenta
  | "yellow" => .ok .Yellow
  | "white" => .ok .White
  | _ =>
    match natOfDigits s with
    | some n =>
      if n ≤ 255 then .ok (.Ansi256 n)
      else .error ⟨"unrecognized ansi256 color number '" ++ s ++ "'"⟩
    | none =>
      match (rustSplit s ',').map natOfDigits with
      | [some r, some g, some b] =>
        if r ≤ 255 && g ≤ 255 && b ≤ 255 then .ok (.Rgb r g b)
        else .error ⟨"unrecognized RGB color triple '" ++ s ++ "'"⟩
      | _ => .error ⟨"unrecognized color name '" ++ s ++ "'"⟩

/-- The style record of one face (`termcolor::ColorSpec`): optional
foreground and background colors and boolean font attributes. -/
structure ColorSpec where
  fg_color : Option Color
  bg_color : Option Color
  bold : Bool
  intense : Bool
  underline : Bool
  italic : Bool
deriving DecidableEq, Repr

/-- `ColorSpec::new()` / `Default::default()`: no colors, all flags off. -/
def ColorSpec.default : ColorSpec :=
  { fg_color := none, bg_color := none, bold := false, intense := false
    underline := false, italic := false }

def ColorSpec.set_fg (c : ColorSpec) (fg : Option Color) : ColorSpec :=
  { c with fg_color := fg }

def ColorSpec.set_bg (c : ColorSpec) (bg : Option Color) : ColorSpec :=
  { c with bg_color := bg }

def ColorSpec.set_bold (c : ColorSpec) (b : Bool) : ColorSpec :=
  { c with bold := b }

def ColorSpec.set_intense (c : ColorSpec) (b : Bool) : ColorSpec :=
  { c with intense := b }

def ColorSpec.set_underline (c : ColorSpec) (b : Bool) : ColorSpec :=
  { c with underline := b }

def ColorSpec.set_italic (c : ColorSpec) (b : Bool) : ColorSpec :=
  { c with italic := b }

/-- Modelled from the spec: the line-numbering style enumeration
(`LineNumberStyle` lives in the crate's main module, outside the provided
source): one of compact or aligned. -/
inductive LineNumberStyle where
  | Compact
  | Aligned
deriving DecidableEq, Repr

/-- Modelled from the spec: the Configuration (`AppConfig`, declared in the
crate's main module outside the provided source): two boolean feature
toggles, an optional line-numbering style (unset until requested), and four
named Style Records. -/
structure AppConfig where
  debug : Bool
  html : Bool
  line_numbers_style : Option LineNumberStyle
  added_face : ColorSpec
  refine_added_face : ColorSpec
  removed_face : ColorSpec
  refine_removed_face : ColorSpec
deriving DecidableEq, Repr

/-- Modelled from the spec: the default Configuration built by the
Orchestrator; the concrete default face styles are implementation-defined,
and the claims under verification never depend on them. -/
def AppConfig.default : AppConfig :=
  { debug := false, html := false, line_numbers_style := none
    added_face := ColorSpec.default, refine_added_face := ColorSpec.default
    removed_face := ColorSpec.default, refine_removed_face := ColorSpec.default }

/-- `enum FaceName` -/
inductive FaceName where
  | Added
  | RefineAdded
  | Removed
  | RefineRemoved
deriving DecidableEq, Repr

/-- `impl EnumString for FaceName`: the face-name table, in declaration
order. -/
def FaceName.data : List (String × FaceName) :=
  [("added", .Added),
   ("refine-added", .RefineAdded),
   ("removed", .Removed),
   ("refine-removed", .RefineRemoved)]

/-- `impl Display for FaceName` -/
def FaceName.display : FaceName → String
  | .Added => "added"
  | .RefineAdded => "refine-added"
  | .Removed => "removed"
  | .RefineRemoved => "refine-removed"

/-- `FaceName::get_face_mut`, read side: which Style Record a face selects. -/
def FaceName.get_face (fn : FaceName) (config : AppConfig) : ColorSpec :=
  match fn with
  | .Added => config.added_face
  | .RefineAdded => config.refine_added_face
  | .Removed => config.removed_face
  | .RefineRemoved => config.refine_removed_face

/-- `FaceName::get_face_mut`, write side: writing through the mutable
reference returned by `get_face_mut` updates exactly that field. -/
def FaceName.set_face (fn : FaceName) (config : AppConfig) (face : ColorSpec) : AppConfig :=
  match fn with
  | .Added => { config with added_face := face }
  | .RefineAdded => { config with refine_added_face := face }
  | .Removed => { config with removed_face := face }
  | .RefineRemoved => { config with refine_removed_face := face }

/-- `enum FaceColor` -/
inductive FaceColor where
  | Foreground
  | Background
deriving DecidableEq, Repr

/-- `enum AttributeName` -/
inductive AttributeName where
  | Color (c : FaceColor)
  | Italic (b : Bool)
  | Bold (b : Bool)
  | Intense (b : Bool)
  | Underline (b : Bool)
  | Reset
deriving DecidableEq, Repr

/-- `impl EnumString for AttributeName`: the attribute-name table, in
declaration order. -/
def AttributeName.data : List (String × AttributeName) :=
  [("foreground", .Color .Foreground),
   ("background", .Color .Background),
   ("italic", .Italic true),
   ("noitalic", .Italic false),
   ("bold", .Bold true),
   ("nobold", .Bold false),
   ("intense", .Intense true),
   ("nointense", .Intense false),
   ("underline", .Underline true),
   ("nounderline", .Underline false),
   ("none", .Reset)]

/-- `struct LineNumberStyleOpt(LineNumberStyle)` -/
structure LineNumberStyleOpt where
  style : LineNumberStyle
deriving DecidableEq, Repr

/-- `impl EnumString for LineNumberStyleOpt`: the line-numbering style
table, in declaration order. -/
def LineNumberStyleOpt.data : List (String × LineNumberStyleOpt) :=
  [("aligned", ⟨.Aligned⟩),
   ("compact", ⟨.Compact⟩)]

/-- `enum ArgParsingError` -/
inductive ArgParsingError where
  | FaceName (err : String)
  | AttributeName (err : String)
  | Color (err : ParseColorError)
  | MissingValue (face_name : FaceName)
  | LineNumberStyle (err : String)
deriving DecidableEq, Repr

/-- `impl Display for ArgParsingError` -/
def ArgParsingError.display : ArgParsingError → String
  | .FaceName err => "unexpected face name: " ++ err
  | .AttributeName err => "unexpected attribute name: " ++ err
  | .Color err => "unexpected color value: " ++ err.msg
  | .MissingValue face_name =>
    "error parsing color: missing color value for face '" ++ face_name.display ++ "'"
  | .LineNumberStyle err => "unexpected line number style: " ++ err

/-- `fn tryparse<T: EnumString>`: look the input up in the enumeration
table; on a miss, report the offending string and the `|`-joined list of
all valid names in table order. The Rust version obtains the table from the
`EnumString` trait; here the table is passed explicitly. -/
def tryparse {α : Type} (data : List (String × α)) (input : String) : Except String α :=
  match data.find? (fun p => p.1 == input) with
  | some p => .ok p.2
  | none =>
    .error ("got '" ++ input ++ "', expected " ++
      String.intercalate "|" (data.map Prod.fst))

/-- `impl FromStr for FaceName` -/
def FaceName.from_str (input : String) : Except ArgParsingError FaceName :=
  (tryparse FaceName.data input).mapError ArgParsingError.FaceName

/-- `impl FromStr for AttributeName` -/
def AttributeName.from_str (input : String) : Except ArgParsingError AttributeName :=
  (tryparse AttributeName.data input).mapError ArgParsingError.AttributeName

/-- `impl FromStr for LineNumberStyleOpt` -/
def LineNumberStyleOpt.from_str (input : String) : Except ArgParsingError LineNumberStyleOpt :=
  (tryparse LineNumberStyleOpt.data input).mapError ArgParsingError.LineNumberStyle

/-- `struct ColorOpt(Option<Color>)` and `impl FromStr for ColorOpt`:
the "none" sentinel yields no color, anything else is delegated to the
color library, errors wrapped as `ArgParsingError::Color`. -/
def ColorOpt.from_str (input : String) : Except ArgParsingError (Option Color) :=
  if input == "none" then .ok none
  else
    match Color.from_str input with
    | .ok color => .ok (some color)
    | .error err => .error (ArgParsingError.Color err)

/-- `fn parse_line_number_style`: resolve the last supplied value (compact
when none was supplied) and store it; the config is written only after the
value resolves, so on error it is returned unchanged. -/
def parse_line_number_style (config : AppConfig) (values : List String) :
    AppConfig × Option ArgParsingError :=
  match values.getLast? with
  | some style =>
    match LineNumberStyleOpt.from_str style with
    | .error err => (config, some err)
    | .ok s => ({ config with line_numbers_style := some s.style }, none)
  | none => ({ config with line_numbers_style := some .Compact }, none)

/-- The effect of one color-kind attribute on a style record: the `match
kind` inside the loop of `parse_color_attributes` applying `set_fg` or
`set_bg`. -/
def applyColor (kind : FaceColor) (face : ColorSpec) (color : Option Color) : ColorSpec :=
  match kind with
  | .Foreground => face.set_fg color
  | .Background => face.set_bg color

/-- The loop body of `fn parse_color_attributes`: consume attribute tokens
left to right, mutating the face in place; a color-kind attribute consumes
one further token as its value, and its absence aborts with
`MissingValue`. The partially updated face is returned alongside the
error, mirroring Rust's in-place mutation through `&mut`. -/
def applyAttributes (face_name : FaceName) (face : ColorSpec) :
    List String → ColorSpec × Option ArgParsingError
  | [] => (face, none)
  | value :: rest =>
    match AttributeName.from_str value with
    | .error err => (face, some err)
    | .ok attribute_name =>
      match attribute_name with
      | .Color kind =>
        match rest with
        | [] => (face, some (ArgParsingError.MissingValue face_name))
        | v :: rest2 =>
          match ColorOpt.from_str v with
          | .error err => (face, some err)
          | .ok color =>
            applyAttributes face_name (applyColor kind face color) rest2
      | .Italic b => applyAttributes face_name (face.set_italic b) rest
      | .Bold b => applyAttributes face_name (face.set_bold b) rest
      | .Intense b => applyAttributes face_name (face.set_intense b) rest
      | .Underline b => applyAttributes face_name (face.set_underline b) rest
      | .Reset => applyAttributes face_name ColorSpec.default rest

/-- `fn parse_color_attributes`: fetch the face's Style Record through
`get_face_mut`, run the attribute loop on it, and write the (possibly
partially) updated record back, returning the error if any. -/
def parse_color_attributes (config : AppConfig) (values : List String)
    (face_name : FaceName) : AppConfig × Option ArgParsingError :=
  match applyAttributes face_name (face_name.get_face config) values with
  | (face, err) => (face_name.set_face config face, err)

/-- `fn parse_color_args`: process each `--colors` value in order; split it
on ':', resolve the first piece to a face name, hand the rest to
`parse_color_attributes`; stop at the first error, keeping mutations made
so far (Rust mutates `config` through `&mut`). -/
def parse_color_args (config : AppConfig) :
    List String → AppConfig × Option ArgParsingError
  | [] => (config, none)
  | value :: values =>
    match rustSplit value ':' with
    | [] => parse_color_args config values
    | piece :: pieces =>
      match FaceName.from_str piece with
      | .error err => (config, some err)
      | .ok face_name =>
        match parse_color_attributes config pieces face_name with
        | (config2, some err) => (config2, some err)
        | (config2, none) => parse_color_args config2 values

/-- The attribute-token sequences accepted by the attribute loop of
`parse_color_attributes`: every token resolves to an attribute name, and
every color-kind attribute is followed by one token accepted by the color
value parser. -/
def validAttrTokens : List String → Bool
  | [] => true
  | [t] =>
    match AttributeName.from_str t with
    | .error _ => false
    | .ok (.Color _) => false
    | .ok _ => true
  | t :: v :: rest2 =>
    match AttributeName.from_str t with
    | .error _ => false
    | .ok (.Color _) => (ColorOpt.from_str v).isOk && validAttrTokens rest2
    | .ok _ => validAttrTokens (v :: rest2)

/-- The observable outcome of `parse_config`: either the process exits
with a message on standard error and an exit code, or a Configuration is
returned. -/
inductive ParseOutcome where
  | exited (msg : String) (code : Int)
  | ok (config : AppConfig)
deriving DecidableEq, Repr

/-- `fn die`: print the error's message to standard error and exit with a
non-zero status. -/
def die (err : ArgParsingError) : ParseOutcome :=
  .exited err.display (-1)

/-- The line-numbering block of `parse_config`: run only when the flag
occurred at least once and clap supplies values. -/
def lnPhase (config : AppConfig) (line_numbers_occurrences : Nat)
    (line_numbers_values : Option (List String)) : AppConfig × Option ArgParsingError :=
  if line_numbers_occurrences ≠ 0 then
    match line_numbers_values with
    | some values => parse_line_number_style config values
    | none => (config, none)
  else (config, none)

/-- The `--colors` block of `parse_config`: run when clap supplies values. -/
def colorPhase (config : AppConfig) (color_values : Option (List String)) :
    AppConfig × Option ArgParsingError :=
  match color_values with
  | some values => parse_color_args config values
  | none => (config, none)

/-- `fn parse_config`: the Orchestrator. The clap-supplied inputs are
passed explicitly: whether stdin is a TTY, the usage text, presence of the
two boolean flags, the occurrence count and values of `--line-numbers`,
and the values of `--colors`. Each sub-parser failure is terminal via
`die`; a Configuration is produced only if every phase succeeded. -/
def parse_config (stdin_is_tty : Bool) (usage : String) (debug html : Bool)
    (line_numbers_occurrences : Nat) (line_numbers_values : Option (List String))
    (color_values : Option (List String)) : ParseOutcome :=
  if stdin_is_tty then .exited usage (-1)
  else
    let config := { AppConfig.default with debug := debug, html := html }
    match lnPhase config line_numbers_occurrences line_numbers_values with
    | (_, some err) => die err
    | (config1, none) =>
      match colorPhase config1 color_values with
      | (_, some err) => die err
      | (config2, none) => .ok config2

/-- Running the attribute loop on a concatenation: if the first part is
consumed without error, the loop continues on the rest from the reached
style record. -/
theorem applyAttributes_append (fn : FaceName) (f : ColorSpec) (pre : List String) :
    ∀ (f' : ColorSpec) (post : List String),
      applyAttributes fn f pre = (f', none) →
      applyAttributes fn f (pre ++ post) = applyAttributes fn f' post := by
  induction f, pre using applyAttributes.induct fn with
  | case1 face =>
    intro f' post h
    simp only [applyAttributes, Prod.mk.injEq, and_true] at h
    subst h
    simp
  | case2 face piece rest err herr =>
    intro f' post h
    rw [applyAttributes, herr] at h
    simp at h
  | case3 face piece a herr =>
    intro f' post h
    rw [applyAttributes, herr] at h
    simp at h
  | case4 face piece a v rest err hv ha =>
    intro f' post h
    rw [applyAttributes] at h
    simp only [ha, hv] at h
    simp at h
  | case5 face piece a v rest color hv ha ih =>
    intro f' post h
    rw [applyAttributes] at h
    simp only [ha, hv] at h
    rw [List.cons_append, List.cons_append, applyAttributes]
    simp only [ha, hv]
    exact ih f' post h
  | case6 face piece rest b ha ih =>
    intro f' post h
    rw [applyAttributes, ha] at h
    rw [List.cons_append, applyAttributes, ha]
    exact ih f' post h
  | case7 face piece rest b ha ih =>
    intro f' post h
    rw [applyAttributes, ha] at h
    rw [List.cons_append, applyAttributes, ha]
    exact ih f' post h
  | case8 face piece rest b ha ih =>
    intro f' post h
    rw [applyAttributes, ha] at h
    rw [List.cons_append, applyAttributes, ha]
    exact ih f' post h
  | case9 face piece rest b ha ih =>
    intro f' post h
    rw [applyAttributes, ha] at h
    rw [List.cons_append, applyAttributes, ha]
    exact ih f' post h
  | case10 face piece rest ha ih =>
    intro f' post h
    rw [applyAttributes, ha] at h
    rw [List.cons_append, applyAttributes, ha]
    exact ih f' post h

/-- On a token sequence accepted by `validAttrTokens`, the attribute loop
never reports an error. -/
theorem applyAttributes_valid_no_error (fn : FaceName) (f : ColorSpec) (ts : List String) :
    validAttrTokens ts = true → (applyAttributes fn f ts).2 = none := by
  induction f, ts using applyAttributes.induct fn with
  | case1 face =>
    intro _
    simp [applyAttributes]
  | case2 face piece rest err herr =>
    intro hv
    cases rest with
    | nil => simp [validAttrTokens, herr] at hv
    | cons v rest2 => simp [validAttrTokens, herr] at hv
  | case3 face piece a herr =>
    intro hv
    simp [validAttrTokens, herr] at hv
  | case4 face piece a v rest err hcol ha =>
    intro hv
    simp [validAttrTokens, ha, hcol, Except.isOk, Except.toBool] at hv
  | case5 face piece a v rest color hcol ha ih =>
    intro hv
    simp only [validAttrTokens, ha, hcol, Except.isOk, Except.toBool, Bool.true_and] at hv
    rw [applyAttributes]
    simp only [ha, hcol]
    exact ih hv
  | case6 face piece rest b ha ih =>
    intro hv
    rw [applyAttributes]
    simp only [ha]
    cases rest with
    | nil => exact ih rfl
    | cons v rest2 =>
      simp only [validAttrTokens, ha] at hv
      exact ih hv
  | case7 face piece rest b ha ih =>
    intro hv
    rw [applyAttributes]
    simp only [ha]
    cases rest with
    | nil => exact ih rfl
    | cons v rest2 =>
      simp only [validAttrTokens, ha] at hv
      exact ih hv
  | case8 face piece rest b ha ih =>
    intro hv
    rw [applyAttributes]
    simp only [ha]
    cases rest with
    | nil => exact ih rfl
    | cons v rest2 =>
      simp only [validAttrTokens, ha] at hv
      exact ih hv
  | case9 face piece rest b ha ih =>
    intro hv
    rw [applyAttributes]
    simp only [ha]
    cases rest with
    | nil => exact ih rfl
    | cons v rest2 =>
      simp only [validAttrTokens, ha] at hv
      exact ih hv
  | case10 face piece rest ha ih =>
    intro hv
    rw [applyAttributes]
    simp only [ha]
    cases rest with
    | nil => exact ih rfl
    | cons v rest2 =>
      simp only [validAttrTokens, ha] at hv
      exact ih hv

/-- In a table whose names are distinct, `find?` on a name present in the
table returns exactly its pair. -/
theorem find_first_of_nodup {α : Type} (data : List (String × α)) (input : String) (v : α) :
    (data.map Prod.fst).Nodup → (input, v) ∈ data →
    data.find? (fun p => p.1 == input) = some (input, v) := by
  induction data with
  | nil =>
    intro _ hmem
    simp at hmem
  | cons hd tl ih =>
    intro hnd hmem
    simp only [List.map_cons, List.nodup_cons] at hnd
    rcases List.mem_cons.mp hmem with heq | htl
    · subst heq
      simp [List.find?]
    · have hne : hd.1 ≠ input := by
        intro contra
        exact hnd.1 (contra ▸ List.mem_map_of_mem Prod.fst htl)
      have hne2 : (hd.1 == input) = false := beq_eq_false_iff_ne.mpr hne
      simp only [List.find?, hne2]
      exact ih hnd.2 htl

/-- `set_face` touches exactly the selected face field: the toggles, the
line-numbering style and every other face are preserved. -/
theorem set_face_frame (fn fn2 : FaceName) (c : AppConfig) (face : ColorSpec) :
    (fn.set_face c face).debug = c.debug ∧
    (fn.set_face c face).html = c.html ∧
    (fn.set_face c face).line_numbers_style = c.line_numbers_style ∧
    (fn2 ≠ fn → fn2.get_face (fn.set_face c face) = fn2.get_face c) := by
  cases fn <;> cases fn2 <;> simp [FaceName.set_face, FaceName.get_face]

/-- C1: applying the reset attribute token "none" in attribute position
replaces the face's Style Record with the fresh default regardless of the
attributes applied earlier in the sequence, and the remaining tokens are
processed on top of that default, not the pre-reset state. -/
theorem reset_attribute_unconditional (fn : FaceName) (face f' : ColorSpec)
    (pre post : List String)
    (h : applyAttributes fn face pre = (f', none)) :
    applyAttributes fn face (pre ++ "none" :: post) =
      applyAttributes fn ColorSpec.default post := by
  rw [applyAttributes_append fn face pre f' ("none" :: post) h]
  rw [applyAttributes]
  rfl

/-- Witness for C1: after `bold` on a non-default style record, `none`
discards everything and `italic` applies on top of the default. -/
theorem reset_attribute_unconditional_witness :
    applyAttributes .Added (ColorSpec.default.set_underline true)
        (["bold"] ++ "none" :: ["italic"]) =
      applyAttributes .Added ColorSpec.default ["italic"] :=
  reset_attribute_unconditional .Added (ColorSpec.default.set_underline true)
    ((ColorSpec.default.set_underline true).set_bold true) ["bold"] ["italic"] rfl

/-- C2: for every enumeration table and candidate, `tryparse` returns the
value paired with the candidate on an exact (case-sensitive) name match,
and otherwise fails with an error naming the offending string and the
`|`-joined list of all valid names in table order. -/
theorem tryparse_exact_or_enumerated_error {α : Type} (data : List (String × α)) (input : String) :
    ((data.map Prod.fst).Nodup → ∀ v : α, (input, v) ∈ data → tryparse data input = .ok v) ∧
    (input ∉ data.map Prod.fst →
      tryparse data input =
        .error ("got '" ++ input ++ "', expected " ++
          String.intercalate "|" (data.map Prod.fst))) := by
  constructor
  · intro hnd v hmem
    unfold tryparse
    rw [find_first_of_nodup data input v hnd hmem]
  · intro hnot
    unfold tryparse
    have hnone : data.find? (fun p => p.1 == input) = none := by
      rw [List.find?_eq_none]
      intro p hp
      simp only [beq_iff_eq]
      intro hEq
      exact hnot (hEq ▸ List.mem_map_of_mem Prod.fst hp)
    rw [hnone]

/-- Witness for C2: an exact match on the face table resolves, and a
wrong-case miss on the attribute table enumerates every attribute name in
declaration order. -/
theorem tryparse_exact_or_enumerated_error_witness :
    tryparse FaceName.data "refine-removed" = .ok FaceName.RefineRemoved ∧
    tryparse AttributeName.data "Bold" =
      .error "got 'Bold', expected foreground|background|italic|noitalic|bold|nobold|intense|nointense|underline|nounderline|none" :=
  ⟨(tryparse_exact_or_enumerated_error FaceName.data "refine-removed").1
      (by decide) FaceName.RefineRemoved (by decide),
   ((tryparse_exact_or_enumerated_error AttributeName.data "Bold").2 (by decide)).trans rfl⟩

/-- C3: a color-kind attribute as last token makes the attribute loop fail
with a missing-value error carrying the face being configured (whose
message names that face); with a following token present, exactly that one
token is consumed as the color value. -/
theorem color_attribute_requires_value (fn : FaceName) (face f' : ColorSpec)
    (pre : List String) (t : String) (kind : FaceColor)
    (hpre : applyAttributes fn face pre = (f', none))
    (ht : AttributeName.from_str t = .ok (.Color kind)) :
    applyAttributes fn face (pre ++ [t]) = (f', some (.MissingValue fn)) ∧
    ArgParsingError.display (.MissingValue fn) =
      "error parsing color: missing color value for face '" ++ fn.display ++ "'" ∧
    ∀ (v : String) (color : Option Color) (rest : List String),
      ColorOpt.from_str v = .ok color →
      applyAttributes fn face (pre ++ t :: v :: rest) =
        applyAttributes fn (applyColor kind f' color) rest := by
  refine ⟨?_, rfl, ?_⟩
  · rw [applyAttributes_append fn face pre f' [t] hpre]
    rw [applyAttributes, ht]
  · intro v color rest hv
    rw [applyAttributes_append fn face pre f' (t :: v :: rest) hpre]
    rw [applyAttributes]
    simp only [ht, hv]

/-- Witness for C3: `background` at the end fails with the missing-value
error for refine-removed; with `red` following, exactly `red` is consumed
as the background color. -/
theorem color_attribute_requires_value_witness :
    applyAttributes .RefineRemoved ColorSpec.default ["background"] =
      (ColorSpec.default, some (.MissingValue .RefineRemoved)) ∧
    applyAttributes .RefineRemoved ColorSpec.default ["background", "red", "bold"] =
      applyAttributes .RefineRemoved
        (applyColor .Background ColorSpec.default (some .Red)) ["bold"] :=
  ⟨(color_attribute_requires_value .RefineRemoved ColorSpec.default ColorSpec.default
      [] "background" .Background rfl rfl).1,
   (color_attribute_requires_value .RefineRemoved ColorSpec.default ColorSpec.default
      [] "background" .Background rfl rfl).2.2 "red" (some .Red) ["bold"] rfl⟩

/-- C4 counterexample: a `--colors` value equal to the empty string is not
a no-op: splitting `""` on ':' yields one empty piece (as Rust's
`str::split` does), so the face-name resolution fails on `''`. -/
theorem empty_colors_value_not_noop :
    parse_color_args AppConfig.default [""] =
      (AppConfig.default,
       some (.FaceName "got '', expected added|refine-added|removed|refine-removed")) ∧
    parse_color_args AppConfig.default [""] ≠ (AppConfig.default, none) :=
  ⟨rfl, by decide⟩

/-- C4 (amended): for a `--colors` value equal to the empty string, the
Face-Spec Line Parser leaves the Configuration unchanged but fails with an
unknown-face-name error whose offending token is the empty string. -/
theorem empty_colors_value_unknown_face (c : AppConfig) :
    parse_color_args c [""] =
      (c, some (.FaceName "got '', expected added|refine-added|removed|refine-removed")) :=
  rfl

/-- C5: `--colors` occurrences are processed left to right — a successful
first occurrence leaves the parse continuing from the updated
Configuration — and a later occurrence accumulates onto the same face's
record: `foreground:none` then `background:red` leaves the foreground
cleared, the background set, and every other accumulated attribute of the
face intact. -/
theorem colors_in_order_accumulate (c c1 : AppConfig) (v : String) (vs : List String)
    (h : parse_color_args c [v] = (c1, none)) :
    parse_color_args c (v :: vs) = parse_color_args c1 vs ∧
    ∀ orig : AppConfig,
      parse_color_args orig ["added:foreground:none", "added:background:red"] =
        ({ orig with added_face :=
          { orig.added_face with fg_color := none, bg_color := some .Red } }, none) := by
  constructor
  · rw [parse_color_args] at h ⊢
    rcases hs : rustSplit v ':' with _ | ⟨piece, pieces⟩
    · simp only [hs] at h ⊢
      simp only [parse_color_args, Prod.mk.injEq, and_true] at h
      rw [h]
    · simp only [hs] at h ⊢
      rcases hfn : FaceName.from_str piece with err | fn
      · simp only [hfn] at h
        simp at h
      · simp only [hfn] at h ⊢
        rcases hpa : parse_color_attributes c pieces fn with ⟨c2, e⟩
        cases e with
        | some err =>
          simp only [hpa] at h
          simp at h
        | none =>
          simp only [hpa] at h ⊢
          simp only [parse_color_args, Prod.mk.injEq, and_true] at h
          rw [h]
  · intro orig
    rfl

/-- Witness for C5: a successful `added:bold` occurrence continues from
the updated Configuration; the two-occurrence accumulation example
instantiated at the default Configuration. -/
theorem colors_in_order_accumulate_witness :
    parse_color_args AppConfig.default ("added:bold" :: ["removed:italic"]) =
      parse_color_args
        ({ AppConfig.default with added_face := ColorSpec.default.set_bold true })
        ["removed:italic"] ∧
    parse_color_args AppConfig.default ["added:foreground:none", "added:background:red"] =
      ({ AppConfig.default with added_face :=
        { ColorSpec.default with fg_color := none, bg_color := some .Red } }, none) :=
  ⟨(colors_in_order_accumulate AppConfig.default
      ({ AppConfig.default with added_face := ColorSpec.default.set_bold true })
      "added:bold" ["removed:italic"] rfl).1,
   (colors_in_order_accumulate AppConfig.default
      ({ AppConfig.default with added_face := ColorSpec.default.set_bold true })
      "added:bold" ["removed:italic"] rfl).2 AppConfig.default⟩

/-- C6: for every face and every valid attribute-token sequence, parsing
succeeds and mutates only the named face's Style Record: the toggles, the
line-numbering style and the other faces are unchanged. -/
theorem valid_attributes_mutate_only_named_face (fn : FaceName) (c : AppConfig)
    (ts : List String) (h : validAttrTokens ts = true) :
    (parse_color_attributes c ts fn).2 = none ∧
    (parse_color_attributes c ts fn).1.debug = c.debug ∧
    (parse_color_attributes c ts fn).1.html = c.html ∧
    (parse_color_attributes c ts fn).1.line_numbers_style = c.line_numbers_style ∧
    ∀ fn2 : FaceName, fn2 ≠ fn →
      fn2.get_face (parse_color_attributes c ts fn).1 = fn2.get_face c := by
  have hsucc := applyAttributes_valid_no_error fn (fn.get_face c) ts h
  rcases hres : applyAttributes fn (fn.get_face c) ts with ⟨face, e⟩
  rw [hres] at hsucc
  subst hsucc
  have hunfold : parse_color_attributes c ts fn = (fn.set_face c face, none) := by
    rw [parse_color_attributes, hres]
  rw [hunfold]
  exact ⟨rfl, (set_face_frame fn fn c face).1, (set_face_frame fn fn c face).2.1,
    (set_face_frame fn fn c face).2.2.1,
    fun fn2 hne => (set_face_frame fn fn2 c face).2.2.2 hne⟩

/-- Witness for C6: a valid sequence for the removed face succeeds and
leaves the added face untouched. -/
theorem valid_attributes_mutate_only_named_face_witness :
    validAttrTokens ["foreground", "red", "nobold"] = true ∧
    (parse_color_attributes AppConfig.default ["foreground", "red", "nobold"] .Removed).2 = none ∧
    FaceName.Added.get_face
        (parse_color_attributes AppConfig.default ["foreground", "red", "nobold"] .Removed).1 =
      FaceName.Added.get_face AppConfig.default :=
  ⟨rfl,
   (valid_attributes_mutate_only_named_face .Removed AppConfig.default
      ["foreground", "red", "nobold"] rfl).1,
   (valid_attributes_mutate_only_named_face .Removed AppConfig.default
      ["foreground", "red", "nobold"] rfl).2.2.2.2 .Added (by decide)⟩

/-- C7: the Line-Numbering Mode Parser stores the resolution of the last
supplied value (later occurrences override earlier ones), stores compact
mode for the empty sequence, and surfaces a line-numbering-style error for
an unresolvable value (leaving the Configuration unchanged). -/
theorem line_number_style_last_wins (c : AppConfig) :
    parse_line_number_style c [] = ({ c with line_numbers_style := some .Compact }, none) ∧
    (∀ (vs : List String) (v : String) (s : LineNumberStyleOpt),
      LineNumberStyleOpt.from_str v = .ok s →
      parse_line_number_style c (vs ++ [v]) =
        ({ c with line_numbers_style := some s.style }, none)) ∧
    (∀ (vs : List String) (v msg : String),
      tryparse LineNumberStyleOpt.data v = .error msg →
      parse_line_number_style c (vs ++ [v]) = (c, some (.LineNumberStyle msg))) := by
  refine ⟨rfl, ?_, ?_⟩
  · intro vs v s hs
    rw [parse_line_number_style, List.getLast?_concat]
    simp only [hs]
  · intro vs v msg htry
    have hv : LineNumberStyleOpt.from_str v = .error (.LineNumberStyle msg) := by
      rw [LineNumberStyleOpt.from_str, htry]
      rfl
    rw [parse_line_number_style, List.getLast?_concat]
    simp only [hv]

/-- Witness for C7: with values `compact` then `aligned` the last one wins;
an unknown value yields the line-numbering-style error. -/
theorem line_number_style_last_wins_witness :
    parse_line_number_style AppConfig.default (["compact"] ++ ["aligned"]) =
      ({ AppConfig.default with line_numbers_style := some .Aligned }, none) ∧
    parse_line_number_style AppConfig.default ([] ++ ["bogus"]) =
      (AppConfig.default, some (.LineNumberStyle "got 'bogus', expected aligned|compact")) :=
  ⟨(line_number_style_last_wins AppConfig.default).2.1 ["compact"] "aligned" ⟨.Aligned⟩ rfl,
   (line_number_style_last_wins AppConfig.default).2.2 [] "bogus"
      "got 'bogus', expected aligned|compact" rfl⟩

/-- C8: parsing `refine-added:background:blue:bold` succeeds, sets the
refine-added face's background to blue and bold to true, and leaves its
foreground, italic, intense and underline fields untouched (so at their
defaults when starting from the default Configuration). -/
theorem refine_added_background_blue_bold (c : AppConfig) :
    parse_color_args c ["refine-added:background:blue:bold"] =
      ({ c with refine_added_face :=
        { c.refine_added_face with bg_color := some .Blue, bold := true } }, none) ∧
    parse_color_args AppConfig.default ["refine-added:background:blue:bold"] =
      ({ AppConfig.default with refine_added_face :=
        { ColorSpec.default with bg_color := some .Blue, bold := true } }, none) :=
  ⟨rfl, rfl⟩

/-- C10: the Attribute Applicator is not atomic on failure: after `bold`
followed by the unknown attribute `zzz`, the error is returned while the
bold flag is already applied to the added face in the returned
Configuration. -/
theorem attribute_applicator_not_atomic :
    parse_color_attributes AppConfig.default ["bold", "zzz"] .Added =
      ({ AppConfig.default with added_face := ColorSpec.default.set_bold true },
       some (.AttributeName "got 'zzz', expected foreground|background|italic|noitalic|bold|nobold|intense|nointense|underline|nounderline|none")) ∧
    (parse_color_attributes AppConfig.default ["bold", "zzz"] .Added).1.added_face.bold = true :=
  ⟨rfl, rfl⟩

/-- C9: any sub-parser error is terminal: `parse_config` ends in an exit
carrying the error's displayed message and the non-zero status -1, and a
Configuration is produced only when every invoked sub-parser succeeded. -/
theorem parse_config_error_is_terminal (tty : Bool) (usage : String) (d h : Bool)
    (occ : Nat) (lnv cv : Option (List String)) :
    (∀ (c1 : AppConfig) (err : ArgParsingError),
      tty = false →
      lnPhase { AppConfig.default with debug := d, html := h } occ lnv = (c1, some err) →
      parse_config tty usage d h occ lnv cv = .exited err.display (-1) ∧ ((-1 : Int) ≠ 0)) ∧
    (∀ (c1 c2 : AppConfig) (err : ArgParsingError),
      tty = false →
      lnPhase { AppConfig.default with debug := d, html := h } occ lnv = (c1, none) →
      colorPhase c1 cv = (c2, some err) →
      parse_config tty usage d h occ lnv cv = .exited err.display (-1) ∧ ((-1 : Int) ≠ 0)) ∧
    (∀ config : AppConfig,
      parse_config tty usage d h occ lnv cv = .ok config →
      tty = false ∧
      ∃ c1 : AppConfig,
        lnPhase { AppConfig.default with debug := d, html := h } occ lnv = (c1, none) ∧
        colorPhase c1 cv = (config, none)) := by
  refine ⟨?_, ?_, ?_⟩
  · intro c1 err htty hln
    subst htty
    rw [parse_config]
    simp only [Bool.false_eq_true, if_false, hln]
    exact ⟨rfl, by decide⟩
  · intro c1 c2 err htty hln hcol
    subst htty
    rw [parse_config]
    simp only [Bool.false_eq_true, if_false, hln, hcol]
    exact ⟨rfl, by decide⟩
  · intro config hok
    cases tty with
    | true =>
      rw [parse_config] at hok
      simp at hok
    | false =>
      rw [parse_config] at hok
      simp only [Bool.false_eq_true, if_false] at hok
      rcases hl : lnPhase { AppConfig.default with debug := d, html := h } occ lnv with ⟨c1, e1⟩
      cases e1 with
      | some err =>
        simp only [hl] at hok
        simp [die] at hok
      | none =>
        simp only [hl] at hok
        rcases hc : colorPhase c1 cv with ⟨c2, e2⟩
        cases e2 with
        | some err =>
          simp only [hc] at hok
          simp [die] at hok
        | none =>
          simp only [hc, ParseOutcome.ok.injEq] at hok
          subst hok
          exact ⟨rfl, c1, rfl, hc⟩

/-- Witness for C9: an unresolvable `--line-numbers` value makes
`parse_config` exit with that error's message and status -1. -/
theorem parse_config_error_is_terminal_witness :
    parse_config false "usage text" false false 1 (some ["bogus"]) none =
      .exited "unexpected line number style: got 'bogus', expected aligned|compact" (-1) ∧
    ((-1 : Int) ≠ 0) :=
  (parse_config_error_is_terminal false "usage text" false false 1 (some ["bogus"]) none).1
    AppConfig.default (.LineNumberStyle "got 'bogus', expected aligned|compact") rfl rfl
